import Mathlib

/-!
Verification development for `planet_bridge.py`, a small Flask bridge that
fetches Date/Open/High/Low/Close rows for a planet symbol and re-exposes them
as JSON/CSV/charting-protocol endpoints.

The embedding models the pure part of the program: the `planet_dataframe`
normalisation pipeline (pandas operations on a small positional data-frame
model), and the pure response construction of the `/planet/...`, `/config`,
`/symbols` and `/history` handlers, parameterised by the payload the upstream
fetch returned.  Python/pandas scalars are modelled by `Cell`: strings,
rationals (for floats; every numeric literal in play is exactly representable),
and a single `null` covering `None`/`NaN`/`NaT`.
-/

namespace PlanetBridge

instance {ε α : Type} [DecidableEq ε] [DecidableEq α] : DecidableEq (Except ε α) := fun x y =>
  match x, y with
  | .ok a, .ok b => if h : a = b then .isTrue (by rw [h]) else .isFalse (by simp [h])
  | .error e, .error f => if h : e = f then .isTrue (by rw [h]) else .isFalse (by simp [h])
  | .ok _, .error _ => .isFalse (by simp)
  | .error _, .ok _ => .isFalse (by simp)

/-- A scalar in an upstream row or a data-frame cell: a string, a number
(pandas floats modelled as rationals), or null (Python `None`, pandas
`NaN`/`NaT` after coercion are all identified). -/
inductive Cell
  | str (s : String)
  | num (q : ℚ)
  | null
deriving DecidableEq

/-- One upstream row object: an association list from JSON keys to values,
as `fetch_planet_json` hands it to `pd.DataFrame`. -/
abbrev RawRow := List (String × Cell)

/-- The parsed upstream body as `planet_dataframe` sees it: either a JSON
array of row objects, or any non-list JSON value (`isinstance(data, list)`
false). -/
inductive Payload
  | list (rows : List RawRow)
  | nonList
deriving DecidableEq

/-! ### String helpers (Python `str` methods, ASCII model) -/

/-- Python whitespace for `str.strip` (ASCII subset). -/
def isSpace (c : Char) : Bool :=
  c = ' ' || c = '\t' || c = '\n' || c = '\r' || c = '\x0b' || c = '\x0c'

/-- Model of Python `str.strip()`: drop leading and trailing whitespace. -/
def pyStrip (s : String) : String :=
  ⟨((s.data.dropWhile isSpace).reverse.dropWhile isSpace).reverse⟩

/-- Model of Python `str.upper()` (ASCII). -/
def pyUpper (s : String) : String :=
  ⟨s.data.map Char.toUpper⟩

/-- Model of Python `str.lower()` (ASCII). -/
def pyLower (s : String) : String :=
  ⟨s.data.map Char.toLower⟩

/-- Model of Python `str.capitalize()`: first character uppercased, the
remainder lowercased (ASCII). -/
def pyCapitalize (s : String) : String :=
  match s.data with
  | [] => ""
  | c :: cs => ⟨c.toUpper :: cs.map Char.toLower⟩

/-- Split a character list on a separator character; `n` separators yield
`n+1` (possibly empty) groups. -/
def splitOnChar (sep : Char) : List Char → List (List Char)
  | [] => [[]]
  | c :: cs =>
    match splitOnChar sep cs with
    | [] => if c = sep then [[], []] else [[c]]
    | g :: gs => if c = sep then [] :: g :: gs else (c :: g) :: gs

/-- Digits-only check for a character group. -/
def allDigits (l : List Char) : Bool :=
  !l.isEmpty && l.all Char.isDigit

/-- Decimal value of a digit string. -/
def digitsToNat (l : List Char) : Nat :=
  l.foldl (fun a c => a * 10 + (c.toNat - 48)) 0

/-! ### Date parsing and formatting

`pd.to_datetime(-, dayfirst=False, errors='coerce')` is a permissive parser;
this development only ever feeds it ISO `YYYY-MM-DD` shaped strings, so the
model parses exactly that layout (4-digit year, 1-2 digit month/day, real
calendar dates) and coerces everything else to null, as `errors='coerce'`
does. -/

def isLeap (y : Nat) : Bool :=
  (y % 4 = 0 && y % 100 ≠ 0) || y % 400 = 0

def daysInMonth (y m : Nat) : Nat :=
  if m = 2 then (if isLeap y then 29 else 28)
  else if m = 4 || m = 6 || m = 9 || m = 11 then 30
  else 31

/-- Parse an ISO `YYYY-MM-DD` date string; `none` models coercion to `NaT`. -/
def parseDate (s : String) : Option (Nat × Nat × Nat) :=
  match splitOnChar '-' s.data with
  | [ys, ms, ds] =>
    if allDigits ys && allDigits ms && allDigits ds
        && ys.length = 4 && ms.length ≤ 2 && ds.length ≤ 2 then
      let y := digitsToNat ys
      let m := digitsToNat ms
      let d := digitsToNat ds
      if 1 ≤ m && m ≤ 12 && 1 ≤ d && d ≤ daysInMonth y m then
        some (y, m, d)
      else none
    else none
  | _ => none

def pad2 (n : Nat) : String :=
  if n < 10 then "0" ++ toString n else toString n

/-- `strftime("%Y-%m-%d")` on a parsed date. -/
def formatDate : Nat × Nat × Nat → String
  | (y, m, d) => toString y ++ "-" ++ pad2 m ++ "-" ++ pad2 d

/-- Line 33: `pd.to_datetime(df["Date"], dayfirst=False, errors='coerce')
.dt.strftime("%Y-%m-%d")` on one cell.  Unparseable values (including
non-strings and null) become null. -/
def convertDate : Cell → Cell
  | .str s =>
    match parseDate s with
    | some ymd => .str (formatDate ymd)
    | none => .null
  | _ => .null

/-! ### Numeric coercion -/

/-- Parse a plain decimal literal (optional sign, digits, optional fractional
part) as a rational; the shapes `to_numeric` meets in this program. -/
def parseDecimal (s : String) : Option ℚ :=
  let signed : Bool × List Char :=
    match s.data with
    | '-' :: rest => (true, rest)
    | '+' :: rest => (false, rest)
    | l => (false, l)
  let mk : Nat → Nat → ℚ := fun n den =>
    mkRat (if signed.1 then -(n : Int) else (n : Int)) den
  match splitOnChar '.' signed.2 with
  | [ip] =>
    if allDigits ip then some (mk (digitsToNat ip) 1) else none
  | [ip, fp] =>
    if ip.all Char.isDigit && fp.all Char.isDigit && 0 < ip.length + fp.length then
      some (mk (digitsToNat ip * 10 ^ fp.length + digitsToNat fp) (10 ^ fp.length))
    else none
  | _ => none

/-- Line 43: `pd.to_numeric(-, errors='coerce')` on one cell: numbers pass
through, decimal numeric strings parse, everything else (including null)
coerces to null (`NaN`). -/
def toNumeric : Cell → Cell
  | .num q => .num q
  | .str s =>
    match parseDecimal s with
    | some q => .num q
    | none => .null
  | .null => .null

def isNotNull : Cell → Bool
  | .null => false
  | _ => true

/-! ### The data-frame model

`pd.DataFrame(list_of_dicts)` builds a table whose columns are the union of
the row keys in order of first appearance; a row missing a key gets `NaN`.
The model keeps the column labels and, per row, the list of cells in column
order.  Label lookups (`df[c]`, renames) use the first matching label, which
agrees with pandas whenever labels are unique (they are in every behaviour
this development reasons about). -/

structure DataFrame where
  cols : List String
  rows : List (List Cell)
deriving DecidableEq

/-- Union of row keys in order of first appearance. -/
def keysUnion (data : List RawRow) : List String :=
  data.foldl (fun acc row => row.foldl (fun a kv => if kv.1 ∈ a then a else a ++ [kv.1]) acc) []

/-- `pd.DataFrame(data)` for a list of row objects. -/
def mkDataFrame (data : List RawRow) : DataFrame :=
  let cols := keysUnion data
  ⟨cols, data.map (fun row => cols.map (fun c => ((row.lookup c).getD Cell.null)))⟩

/-- Index of the first column labelled `c`. -/
def colIdx (df : DataFrame) (c : String) : Option Nat :=
  df.cols.findIdx? (· = c)

/-- `df.rename(columns={old: new})`: relabels every column labelled `old`. -/
def renameCol (df : DataFrame) (old new : String) : DataFrame :=
  { df with cols := df.cols.map (fun c => if c = old then new else c) }

/-- `df[c] = df[c].map f` at the first column labelled `c` (no-op when the
label is absent; every use in the pipeline is guarded so it is present). -/
def mapCol (df : DataFrame) (c : String) (f : Cell → Cell) : DataFrame :=
  match colIdx df c with
  | some i => { df with rows := df.rows.map (fun r => r.set i (f (r.getD i Cell.null))) }
  | none => df

/-- `df[c] = None`: overwrite the first column labelled `c`, or append a new
all-null column when the label is absent. -/
def setColNull (df : DataFrame) (c : String) : DataFrame :=
  match colIdx df c with
  | some i => { df with rows := df.rows.map (fun r => r.set i Cell.null) }
  | none => { cols := df.cols ++ [c], rows := df.rows.map (fun r => r ++ [Cell.null]) }

/-- The cell of row `r` in the first column labelled `c`. -/
def cellAt (df : DataFrame) (c : String) (r : List Cell) : Cell :=
  match colIdx df c with
  | some i => r.getD i Cell.null
  | none => Cell.null

/-! ### The normalisation pipeline (`planet_dataframe`, lines 22-50) -/

/-- Line 28: `df.columns = [c.strip() for c in df.columns]`. -/
def stripCols (df : DataFrame) : DataFrame :=
  { df with cols := df.cols.map (fun c => pyStrip c) }

/-- Lines 30-31: adopt lowercase `date` as `Date` only when no `Date` column
exists. -/
def renameDateCol (df : DataFrame) : DataFrame :=
  if "Date" ∉ df.cols ∧ "date" ∈ df.cols then renameCol df "date" "Date" else df

/-- Lines 35-43, one loop iteration: adopt the lowercase variant when the
canonical label is absent, create an all-null column when still absent, then
coerce the column to numeric. -/
def ensureNumericCol (df : DataFrame) (col : String) : DataFrame :=
  let df1 := if col ∉ df.cols ∧ pyLower col ∈ df.cols then renameCol df (pyLower col) col else df
  let df2 := if col ∉ df1.cols then setColNull df1 col else df1
  mapCol df2 col toNumeric

def ohlcCols : List String := ["Open", "High", "Low", "Close"]

/-- Line 46: `df.dropna(subset=["Date", "Close"])`. -/
def dropnaDateClose (df : DataFrame) : DataFrame :=
  { df with rows := df.rows.filter (fun r => isNotNull (cellAt df "Date" r) && isNotNull (cellAt df "Close" r)) }

/-- One normalised output record: the five projected cells of one row. -/
structure OhlcOut where
  dateC : Cell
  openC : Cell
  highC : Cell
  lowC : Cell
  closeC : Cell
deriving DecidableEq

/-- Line 47: `df[["Date","Open","High","Low","Close"]]`. -/
def projectOhlc (df : DataFrame) : List OhlcOut :=
  df.rows.map (fun r => ⟨cellAt df "Date" r, cellAt df "Open" r, cellAt df "High" r, cellAt df "Low" r, cellAt df "Close" r⟩)

/-- Sort key of line 49: the canonical date string (after `dropna` every
record's date is a string). -/
def dateKey (o : OhlcOut) : String :=
  match o.dateC with
  | .str s => s
  | _ => ""

/-- Lexicographic (code-point) order on strings as character lists; the
order pandas/numpy use when sorting the `YYYY-MM-DD` strings.  (Defined
structurally so concrete sorts evaluate.) -/
def strLtb : List Char → List Char → Bool
  | [], [] => false
  | [], _ :: _ => true
  | _ :: _, [] => false
  | c :: cs, d :: ds => if c < d then true else if d < c then false else strLtb cs ds

/-- `a`'s date sorts strictly before `b`'s. -/
def dateLtb (a b : OhlcOut) : Bool := strLtb (dateKey a).data (dateKey b).data

def insertByDate (x : OhlcOut) : List OhlcOut → List OhlcOut
  | [] => [x]
  | y :: ys => if dateLtb y x then y :: insertByDate x ys else x :: y :: ys

/-- Line 49: `df.sort_values(by="Date").reset_index(drop=True)`, modelled as
an ascending insertion sort on the date string.  pandas' default
`kind='quicksort'` does not guarantee any particular order of ties, so the
tie order produced here (input order) is a modelling choice; every theorem
below that inspects sorted output uses only order-insensitive consequences
(`Perm`), never the tie order. -/
def sortByDate : List OhlcOut → List OhlcOut
  | [] => []
  | x :: xs => insertByDate x (sortByDate xs)

/-- The string of the `KeyError` raised by line 33 when no date column
survives header normalisation. -/
def keyErrorDate : String := "KeyError: 'Date'"

/-- Lines 22-50: the pure transform of `planet_dataframe` applied to the
payload `fetch_planet_json` returned.  A `KeyError` escaping line 33 is the
`.error` case. -/
def planet_dataframe (payload : Payload) : Except String (List OhlcOut) :=
  match payload with
  | .nonList => .ok []
  | .list data =>
    if data.length = 0 then .ok []
    else
      let df := mkDataFrame data
      let df := stripCols df
      let df := renameDateCol df
      if "Date" ∈ df.cols then
        let df := mapCol df "Date" convertDate
        let df := ohlcCols.foldl ensureNumericCol df
        let df := dropnaDateClose df
        .ok (sortByDate (projectOhlc df))
      else
        .error keyErrorDate

/-! ### Endpoint handlers (pure part, parameterised by the fetched payload)

Each handler's model takes the payload the upstream fetch produced for it;
the network call itself (`requests.get`) is outside the pure fragment.  An
uncaught Python exception in the handler is the `.error` case. -/

/-- `df.to_dict(orient="records")` of line 56: one association list per
record with the five canonical keys. -/
def toRecords (recs : List OhlcOut) : List RawRow :=
  recs.map (fun r => [("Date", r.dateC), ("Open", r.openC), ("High", r.highC), ("Low", r.lowC), ("Close", r.closeC)])

/-- `/planet/<name>.json` (lines 52-57): normalised records as JSON
objects. -/
def planet_json (payload : Payload) : Except String (List RawRow) :=
  (planet_dataframe payload).map toRecords

/-- Render one cell for `to_csv` (null prints as the empty field). -/
def cellCsv : Cell → String
  | .str s => s
  | .num q => toString q
  | .null => ""

/-- `df.to_csv(index=False)` of line 63: header line then one comma-joined
line per record. -/
def toCsv (recs : List OhlcOut) : String :=
  "Date,Open,High,Low,Close\n" ++
    String.join (recs.map (fun r =>
      cellCsv r.dateC ++ "," ++ cellCsv r.openC ++ "," ++ cellCsv r.highC ++ ","
        ++ cellCsv r.lowC ++ "," ++ cellCsv r.closeC ++ "\n"))

/-- `/planet/<name>.csv` (lines 59-65): the CSV body. -/
def planet_csv (payload : Payload) : Except String String :=
  (planet_dataframe payload).map toCsv

/-- `/planet/<name>` (lines 67-70): alias for the JSON export. -/
def planet_default (payload : Payload) : Except String (List RawRow) :=
  planet_json payload

/-- `request.args.get(key, default)`. -/
def getArg (args : List (String × String)) (key dflt : String) : String :=
  ((args.lookup key).getD dflt)

/-- `/symbols` response fields (lines 90-107). -/
structure SymbolDesc where
  name : String
  ticker : String
  description : String
  type : String
  session : String
  exchange : String
  listed_exchange : String
  timezone : String
  minmov : Nat
  pricescale : Nat
  has_intraday : Bool
  supported_resolutions : List String
  has_no_volume : Bool
deriving DecidableEq

/-- `/symbols` (lines 90-107): echoes the fully uppercased `symbol` query
parameter into the descriptor. -/
def symbols (args : List (String × String)) : SymbolDesc :=
  let symbol := pyUpper (getArg args "symbol" "")
  ⟨symbol, symbol, symbol ++ " Planet Longitude", "planet", "24x7", "Ephemeris",
    "Ephemeris", "Etc/UTC", 1, 100, false, ["D"], true⟩

/-- Days from the Unix epoch of a civil date (standard civil-from-days
algorithm); models naive-UTC `pd.to_datetime` on a canonical date string. -/
def daysFromCivil (y m d : Nat) : Int :=
  let yAdj : Int := if m ≤ 2 then (y : Int) - 1 else (y : Int)
  let era : Int := yAdj / 400
  let yoe : Int := yAdj - era * 400
  let mp : Int := if m ≤ 2 then (m : Int) + 9 else (m : Int) - 3
  let doy : Int := (153 * mp + 2) / 5 + (d : Int) - 1
  let doe : Int := yoe * 365 + yoe / 4 - yoe / 100 + doy
  era * 146097 + doe - 719468

/-- Line 117: `pd.to_datetime(df["Date"]).astype("int64") // 10**9` on one
record: Unix seconds at UTC midnight of its canonical date. -/
def recTime (r : OhlcOut) : Int :=
  match r.dateC with
  | .str s =>
    match parseDate s with
    | some (y, m, d) => 86400 * daysFromCivil y m d
    | none => 0
  | _ => 0

/-- `/history` response (lines 121-128): status plus five parallel columnar
arrays. -/
structure HistoryResp where
  s : String
  t : List Int
  o : List Cell
  h : List Cell
  l : List Cell
  c : List Cell
deriving DecidableEq

/-- Lines 117-128 applied to the normalised records: add the `time` column,
keep rows with `from_ts <= time <= to_ts`, and emit the parallel arrays. -/
def historyCore (recs : List OhlcOut) (from_ts to_ts : Int) : HistoryResp :=
  let kept := recs.filter (fun r => from_ts ≤ recTime r && recTime r ≤ to_ts)
  ⟨"ok", kept.map recTime, kept.map (fun r => r.openC), kept.map (fun r => r.highC),
    kept.map (fun r => r.lowC), kept.map (fun r => r.closeC)⟩

/-- `/history` (lines 109-128), pure part: the payload is what the upstream
fetch returned for the (capitalised) symbol; `resolution` is read from the
query string (line 112) and never used afterwards, exactly as in the
source. -/
def history (payload : Payload) (resolution : String) (from_ts to_ts : Int) :
    Except String HistoryResp :=
  let _ := resolution
  (planet_dataframe payload).map (fun recs => historyCore recs from_ts to_ts)

/-- Line 111 then line 116: the `/history` handler uppercases the raw
`symbol` query parameter and passes its `.capitalize()` to
`planet_dataframe`. -/
def historySymbol (raw : String) : String :=
  pyCapitalize (pyUpper raw)

/-! ### Per-row characterisation of the pipeline

The pipeline's column decisions (which upstream key feeds each canonical
column) depend only on the list of upstream keys; given those decisions every
row is transformed independently.  `srcKey` names the upstream key whose
column ends up under a canonical label, and `rowOut` is the induced per-row
transform; `planet_dataframe_eq_rowOut` below proves the pipeline equal to
`rowOut` + filter + sort. -/

/-- The upstream key whose column ends up labelled `canon`: the first key
stripping to `canon`, else (the rename case) the first key stripping to the
lowercase variant. -/
def srcKey (data : List RawRow) (canon lower : String) : Option String :=
  match (keysUnion data).find? (fun k => pyStrip k = canon) with
  | some k => some k
  | none => (keysUnion data).find? (fun k => pyStrip k = lower)

/-- The final cell of one row under canonical label `canon` with fallback
label `lower` and per-cell coercion `f`. -/
def fieldOut (data : List RawRow) (row : RawRow) (canon lower : String) (f : Cell → Cell) : Cell :=
  match srcKey data canon lower with
  | some k => f ((row.lookup k).getD Cell.null)
  | none => Cell.null

/-- The record the pipeline derives from one upstream row (before the
`dropna` filter and the sort). -/
def rowOut (data : List RawRow) (row : RawRow) : OhlcOut :=
  ⟨fieldOut data row "Date" "date" convertDate,
   fieldOut data row "Open" "open" toNumeric,
   fieldOut data row "High" "high" toNumeric,
   fieldOut data row "Low" "low" toNumeric,
   fieldOut data row "Close" "close" toNumeric⟩

/-- The `dropna(subset=["Date","Close"])` condition on a projected record. -/
def keepRec (o : OhlcOut) : Bool :=
  isNotNull o.dateC && isNotNull o.closeC

/-! #### Frames: symbolic data-frames for the correspondence proof

A frame lists, per column, its label and the function producing its cell from
an upstream row; `realize` maps it to the concrete positional data-frame for
given data.  Each pandas operation of the pipeline corresponds to a structural
operation on frames. -/

/-- A symbolic column description: label and per-row cell source. -/
abbrev Frame := List (String × (RawRow → Cell))

def labels (fr : Frame) : List String := fr.map Prod.fst

def realize (data : List RawRow) (fr : Frame) : DataFrame :=
  ⟨labels fr, data.map (fun row => fr.map (fun p => p.2 row))⟩

/-- The frame of `pd.DataFrame(data)`. -/
def frame0 (data : List RawRow) : Frame :=
  (keysUnion data).map (fun k => (k, fun row => ((row.lookup k).getD Cell.null)))

/-- Relabel every column. -/
def relabelF (g : String → String) (fr : Frame) : Frame :=
  fr.map (fun p => (g p.1, p.2))

/-- Compose `f` onto the first column labelled `c` (no-op when absent):
frame analogue of `mapCol`. -/
def frameMapAt (c : String) (f : Cell → Cell) : Frame → Frame
  | [] => []
  | p :: ps => if p.1 = c then (p.1, fun row => f (p.2 row)) :: ps else p :: frameMapAt c f ps

/-- Overwrite the first column labelled `c` with nulls, appending a null
column when absent: frame analogue of `setColNull`. -/
def frameSetNullAt (c : String) : Frame → Frame
  | [] => [(c, fun _ => Cell.null)]
  | p :: ps => if p.1 = c then (p.1, fun _ => Cell.null) :: ps else p :: frameSetNullAt c ps

/-- The cell source of the first column labelled `c` (null when absent):
frame analogue of `cellAt`. -/
def frameSel (fr : Frame) (c : String) (row : RawRow) : Cell :=
  match fr.find? (fun p => p.1 = c) with
  | some p => p.2 row
  | none => Cell.null

/-- Frame analogue of lines 36-39: adopt the lowercase variant's label when
the canonical one is absent. -/
def frameAdopt (fr : Frame) (col : String) : Frame :=
  if col ∉ labels fr ∧ pyLower col ∈ labels fr
  then relabelF (fun c => if c = pyLower col then col else c) fr else fr

/-- Frame analogue of lines 41-42: create an all-null column when the label
is still absent. -/
def frameCreate (fr : Frame) (col : String) : Frame :=
  if col ∉ labels fr then frameSetNullAt col fr else fr

/-- Frame analogue of one `ensureNumericCol` iteration. -/
def frameEnsure (fr : Frame) (col : String) : Frame :=
  frameMapAt col toNumeric (frameCreate (frameAdopt fr col) col)

/-! #### The pipeline's frames -/

/-- The frame after header stripping (lines 26-28). -/
def baseFrame (data : List RawRow) : Frame :=
  relabelF pyStrip (frame0 data)

/-- The frame after the conditional `date` → `Date` rename (lines 30-31). -/
def dateFrame (data : List RawRow) : Frame :=
  if "Date" ∉ labels (baseFrame data) ∧ "date" ∈ labels (baseFrame data)
  then relabelF (fun c => if c = "date" then "Date" else c) (baseFrame data)
  else baseFrame data

/-- The frame after date conversion and the four OHLC iterations
(lines 33-43). -/
def finalFrame (data : List RawRow) : Frame :=
  ohlcCols.foldl frameEnsure (frameMapAt "Date" convertDate (dateFrame data))

/-- The record the frame `fr` produces from one row. -/
def outOfF (fr : Frame) (row : RawRow) : OhlcOut :=
  ⟨frameSel fr "Date" row, frameSel fr "Open" row, frameSel fr "High" row,
   frameSel fr "Low" row, frameSel fr "Close" row⟩

/-- The spec's `/history` scenario payload: one upstream row dated
1994-01-02. -/
def earth94 : Payload :=
  .list [[("Date", Cell.str "1994-01-02"), ("Open", Cell.str "1.0"),
          ("High", Cell.str "2.0"), ("Low", Cell.str "0.5"), ("Close", Cell.str "1.5")]]

/-- The five lowercase field keys. -/
def lowerKeys : List String := ["date", "open", "high", "low", "close"]

/-- Canonical casing of a lowercase field key. -/
def capKey (k : String) : String :=
  if k = "date" then "Date" else if k = "open" then "Open"
  else if k = "high" then "High" else if k = "low" then "Low"
  else if k = "close" then "Close" else k

/-- The same payload with every key canonically cased. -/
def capData (data : List RawRow) : List RawRow :=
  data.map (fun row => row.map (fun kv => (capKey kv.1, kv.2)))

/-- The key-insertion step of `keysUnion`. -/
def insKey (a : List String) (kv : String × Cell) : List String :=
  if kv.1 ∈ a then a else a ++ [kv.1]

/-! #### Stage correspondence lemmas -/

theorem labels_cons (p : String × (RawRow → Cell)) (fr : Frame) :
    labels (p :: fr) = p.1 :: labels fr := rfl

theorem labels_relabelF (g : String → String) (fr : Frame) :
    labels (relabelF g fr) = (labels fr).map g := by
  simp [labels, relabelF, List.map_map]

theorem labels_frame0 (data : List RawRow) : labels (frame0 data) = keysUnion data := by
  simp [labels, frame0, List.map_map, Function.comp_def]

theorem labels_frameMapAt (c : String) (f : Cell → Cell) (fr : Frame) :
    labels (frameMapAt c f fr) = labels fr := by
  induction fr with
  | nil => rfl
  | cons p fr ih =>
    by_cases hp : p.1 = c
    · simp only [frameMapAt, if_pos hp, labels_cons]
    · simp only [frameMapAt, if_neg hp, labels_cons, ih]

theorem labels_frameSetNullAt_mem (c : String) (fr : Frame) (h : c ∈ labels fr) :
    labels (frameSetNullAt c fr) = labels fr := by
  induction fr with
  | nil => exact absurd h (by simp [labels])
  | cons p fr ih =>
    by_cases hp : p.1 = c
    · simp only [frameSetNullAt, if_pos hp, labels_cons]
    · have h' : c ∈ labels fr := by
        rw [labels_cons, List.mem_cons] at h
        exact h.resolve_left (fun hc => hp hc.symm)
      simp only [frameSetNullAt, if_neg hp, labels_cons, ih h']

theorem labels_frameSetNullAt_not_mem (c : String) (fr : Frame) (h : c ∉ labels fr) :
    labels (frameSetNullAt c fr) = labels fr ++ [c] := by
  induction fr with
  | nil => rfl
  | cons p fr ih =>
    rw [labels_cons, List.mem_cons, not_or] at h
    have hp : p.1 ≠ c := fun hc => h.1 hc.symm
    simp only [frameSetNullAt, if_neg hp, labels_cons, ih h.2, List.cons_append]

theorem realize_cols (data : List RawRow) (fr : Frame) :
    (realize data fr).cols = labels fr := rfl

theorem mkDataFrame_eq_realize (data : List RawRow) :
    mkDataFrame data = realize data (frame0 data) := by
  simp [mkDataFrame, realize, frame0, labels, List.map_map, Function.comp_def]

theorem stripCols_realize (data : List RawRow) (fr : Frame) :
    stripCols (realize data fr) = realize data (relabelF pyStrip fr) := by
  simp [stripCols, realize, relabelF, labels, List.map_map, Function.comp_def]

theorem renameCol_realize (data : List RawRow) (fr : Frame) (old new : String) :
    renameCol (realize data fr) old new
      = realize data (relabelF (fun c => if c = old then new else c) fr) := by
  simp [renameCol, realize, relabelF, labels, List.map_map, Function.comp_def]

theorem DataFrame.ext' {a b : DataFrame} (h1 : a.cols = b.cols) (h2 : a.rows = b.rows) :
    a = b := by
  cases a; cases b; cases h1; cases h2; rfl

theorem rows_realize (data : List RawRow) (fr : Frame) :
    (realize data fr).rows = data.map (fun row => fr.map (fun p => p.2 row)) := rfl

theorem frameMapAt_of_not_mem (c : String) (f : Cell → Cell) (fr : Frame)
    (h : c ∉ labels fr) : frameMapAt c f fr = fr := by
  induction fr with
  | nil => rfl
  | cons p fr ih =>
    rw [labels_cons, List.mem_cons, not_or] at h
    have hp : p.1 ≠ c := fun hc => h.1 hc.symm
    simp only [frameMapAt, if_neg hp, ih h.2]

theorem frameSetNullAt_of_not_mem (c : String) (fr : Frame) (h : c ∉ labels fr) :
    frameSetNullAt c fr = fr ++ [(c, fun _ => Cell.null)] := by
  induction fr with
  | nil => rfl
  | cons p fr ih =>
    rw [labels_cons, List.mem_cons, not_or] at h
    have hp : p.1 ≠ c := fun hc => h.1 hc.symm
    simp only [frameSetNullAt, if_neg hp, ih h.2, List.cons_append]

theorem set_map_frameMapAt (c : String) (f : Cell → Cell) (row : RawRow) :
    ∀ (fr : Frame) (i : Nat), (labels fr).findIdx? (· = c) = some i →
      (fr.map (fun p => p.2 row)).set i (f ((fr.map (fun p => p.2 row)).getD i Cell.null))
        = (frameMapAt c f fr).map (fun p => p.2 row) := by
  intro fr
  induction fr with
  | nil => intro i h; simp [labels] at h
  | cons p fr ih =>
    intro i h
    rw [labels_cons] at h
    by_cases hp : p.1 = c
    · simp [List.findIdx?_cons, hp] at h
      cases h
      simp [frameMapAt, hp]
    · simp [List.findIdx?_cons, hp, List.findIdx?_start_succ] at h
      obtain ⟨j, hj, rfl⟩ := h
      simp only [List.map_cons, List.set_cons_succ, List.getD_cons_succ, frameMapAt,
        if_neg hp, ih j hj]

theorem mapCol_realize (data : List RawRow) (fr : Frame) (c : String) (f : Cell → Cell) :
    mapCol (realize data fr) c f = realize data (frameMapAt c f fr) := by
  cases hfi : colIdx (realize data fr) c with
  | none =>
    rw [colIdx, realize_cols, List.findIdx?_eq_none_iff] at hfi
    have hmem : c ∉ labels fr := fun hc => by simpa using hfi c hc
    simp only [mapCol, colIdx, realize_cols]
    rw [List.findIdx?_eq_none_iff.mpr (by simpa using hfi)]
    rw [frameMapAt_of_not_mem c f fr hmem]
  | some i =>
    simp only [mapCol, hfi]
    apply DataFrame.ext'
    · simp [realize_cols, labels_frameMapAt]
    · simp only [rows_realize, List.map_map]
      refine List.map_congr_left (fun row _ => ?_)
      have := set_map_frameMapAt c f row fr i (by rw [colIdx, realize_cols] at hfi; exact hfi)
      simpa using this

theorem setColNull_realize_not_mem (data : List RawRow) (fr : Frame) (c : String)
    (h : c ∉ labels fr) :
    setColNull (realize data fr) c = realize data (fr ++ [(c, fun _ => Cell.null)]) := by
  have hfi : colIdx (realize data fr) c = none := by
    rw [colIdx, realize_cols, List.findIdx?_eq_none_iff]
    intro x hx
    simp only [decide_eq_false_iff_not]
    exact fun hxc => h (hxc ▸ hx)
  simp only [setColNull, hfi]
  apply DataFrame.ext'
  · simp [realize_cols, labels, List.map_append]
  · simp only [rows_realize, List.map_map]
    refine List.map_congr_left (fun row _ => ?_)
    simp [List.map_append]

/-! #### Selection transport lemmas -/

theorem frameSel_nil (c : String) (row : RawRow) : frameSel [] c row = Cell.null := rfl

theorem frameSel_cons (p : String × (RawRow → Cell)) (fr : Frame) (c : String) (row : RawRow) :
    frameSel (p :: fr) c row = if p.1 = c then p.2 row else frameSel fr c row := by
  by_cases hp : p.1 = c <;> simp [frameSel, List.find?_cons, hp]

theorem frameSel_frameMapAt_ne (c c' : String) (f : Cell → Cell) (fr : Frame) (row : RawRow)
    (h : c' ≠ c) : frameSel (frameMapAt c f fr) c' row = frameSel fr c' row := by
  induction fr with
  | nil => rfl
  | cons p fr ih =>
    by_cases hp : p.1 = c
    · have hp' : p.1 ≠ c' := fun hc => h (hc ▸ hp)
      simp only [frameMapAt, if_pos hp, frameSel_cons, if_neg hp']
    · simp only [frameMapAt, if_neg hp, frameSel_cons]
      by_cases hp' : p.1 = c'
      · rw [if_pos hp', if_pos hp']
      · rw [if_neg hp', if_neg hp']
        exact ih

theorem frameSel_frameMapAt_self (c : String) (f : Cell → Cell) (fr : Frame) (row : RawRow)
    (h : c ∈ labels fr) : frameSel (frameMapAt c f fr) c row = f (frameSel fr c row) := by
  induction fr with
  | nil => exact absurd h (by simp [labels])
  | cons p fr ih =>
    by_cases hp : p.1 = c
    · simp [frameMapAt, hp, frameSel_cons]
    · have h' : c ∈ labels fr := by
        rw [labels_cons, List.mem_cons] at h
        exact h.resolve_left (fun hc => hp hc.symm)
      simp [frameMapAt, hp, frameSel_cons, ih h']

theorem frameSel_append_ne (fr : Frame) (q : String × (RawRow → Cell)) (c : String)
    (row : RawRow) (h : c ≠ q.1) : frameSel (fr ++ [q]) c row = frameSel fr c row := by
  induction fr with
  | nil =>
    rw [List.nil_append, frameSel_cons, if_neg (Ne.symm h)]
  | cons p fr ih =>
    rw [List.cons_append, frameSel_cons, frameSel_cons]
    by_cases hp : p.1 = c
    · rw [if_pos hp, if_pos hp]
    · rw [if_neg hp, if_neg hp]
      exact ih

theorem frameSel_append_self (fr : Frame) (q : String × (RawRow → Cell)) (row : RawRow)
    (h : q.1 ∉ labels fr) : frameSel (fr ++ [q]) q.1 row = q.2 row := by
  induction fr with
  | nil => simp [frameSel_cons]
  | cons p fr ih =>
    rw [labels_cons, List.mem_cons, not_or] at h
    have hp : p.1 ≠ q.1 := fun hc => h.1 hc.symm
    simp [List.cons_append, frameSel_cons, hp, ih h.2]

/-- Renaming `old` to `new` does not affect selection of other labels. -/
theorem frameSel_relabel_ne (old new c : String) (fr : Frame) (row : RawRow)
    (h1 : c ≠ old) (h2 : c ≠ new) :
    frameSel (relabelF (fun x => if x = old then new else x) fr) c row = frameSel fr c row := by
  induction fr with
  | nil => rfl
  | cons p fr ih =>
    simp only [relabelF, List.map_cons] at ih ⊢
    rw [frameSel_cons, frameSel_cons]
    by_cases hp : p.1 = old
    · have e1 : (if p.1 = old then new else p.1) = new := if_pos hp
      rw [e1, if_neg (Ne.symm h2), if_neg (fun hc : p.1 = c => h1 (hc ▸ hp))]
      exact ih
    · have e1 : (if p.1 = old then new else p.1) = p.1 := if_neg hp
      rw [e1]
      by_cases hp' : p.1 = c
      · rw [if_pos hp', if_pos hp']
      · rw [if_neg hp', if_neg hp']
        exact ih

/-- After renaming `old` to `new` (with `new` previously absent), selecting
`new` selects the old `old` column. -/
theorem frameSel_relabel_new (old new : String) (fr : Frame) (row : RawRow)
    (hnew : new ∉ labels fr) :
    frameSel (relabelF (fun x => if x = old then new else x) fr) new row
      = frameSel fr old row := by
  induction fr with
  | nil => rfl
  | cons p fr ih =>
    rw [labels_cons, List.mem_cons, not_or] at hnew
    simp only [relabelF, List.map_cons] at ih ⊢
    rw [frameSel_cons, frameSel_cons]
    by_cases hp : p.1 = old
    · have e1 : (if p.1 = old then new else p.1) = new := if_pos hp
      rw [e1, if_pos rfl, if_pos hp]
    · have hp' : p.1 ≠ new := fun hc => hnew.1 hc.symm
      have e1 : (if p.1 = old then new else p.1) = p.1 := if_neg hp
      rw [e1, if_neg hp', if_neg hp]
      exact ih hnew.2

/-- Membership under the rename map, for labels other than `old`/`new`. -/
theorem mem_map_rename_iff (old new c : String) (L : List String)
    (h1 : c ≠ old) (h2 : c ≠ new) :
    c ∈ L.map (fun x => if x = old then new else x) ↔ c ∈ L := by
  induction L with
  | nil => simp
  | cons x L ih =>
    rw [List.map_cons, List.mem_cons, List.mem_cons, ih]
    by_cases hx : x = old
    · rw [if_pos hx, hx]
      constructor
      · intro hc
        rcases hc with hc | hc
        · exact absurd hc h2
        · exact Or.inr hc
      · intro hc
        rcases hc with hc | hc
        · exact absurd hc h1
        · exact Or.inr hc
    · rw [if_neg hx]

/-- `new` is a label after the rename iff one of `old`/`new` was before. -/
theorem mem_map_rename_new (old new : String) (L : List String) :
    new ∈ L.map (fun x => if x = old then new else x) ↔ old ∈ L ∨ new ∈ L := by
  induction L with
  | nil => simp
  | cons x L ih =>
    rw [List.map_cons, List.mem_cons, List.mem_cons, List.mem_cons, ih]
    by_cases hx : x = old
    · rw [if_pos hx, hx]
      tauto
    · rw [if_neg hx]
      have : (old = x) ↔ False := ⟨fun hc => hx hc.symm, False.elim⟩
      tauto

/-! #### `frameEnsure` transport -/

theorem labels_frameAdopt_mem (col c : String) (fr : Frame)
    (h1 : c ≠ col) (h2 : c ≠ pyLower col) :
    (c ∈ labels (frameAdopt fr col)) ↔ c ∈ labels fr := by
  unfold frameAdopt
  split_ifs with hg
  · rw [labels_relabelF]
    exact mem_map_rename_iff _ _ _ _ h2 h1
  · exact Iff.rfl

theorem labels_frameCreate_mem (col c : String) (fr : Frame) (h1 : c ≠ col) :
    (c ∈ labels (frameCreate fr col)) ↔ c ∈ labels fr := by
  unfold frameCreate
  by_cases hg : col ∉ labels fr
  · rw [if_pos hg, labels_frameSetNullAt_not_mem _ _ hg, List.mem_append]
    simp only [List.mem_singleton]
    exact ⟨fun h => h.resolve_right h1, Or.inl⟩
  · rw [if_neg hg]

theorem labels_frameEnsure_mem (col c : String) (fr : Frame)
    (h1 : c ≠ col) (h2 : c ≠ pyLower col) :
    (c ∈ labels (frameEnsure fr col)) ↔ c ∈ labels fr := by
  unfold frameEnsure
  rw [labels_frameMapAt, labels_frameCreate_mem _ _ _ h1, labels_frameAdopt_mem _ _ _ h1 h2]

theorem frameSel_frameAdopt_ne (col c : String) (fr : Frame) (row : RawRow)
    (h1 : c ≠ col) (h2 : c ≠ pyLower col) :
    frameSel (frameAdopt fr col) c row = frameSel fr c row := by
  unfold frameAdopt
  split_ifs with hg
  · exact frameSel_relabel_ne _ _ _ _ _ h2 h1
  · rfl

theorem frameSel_frameCreate_ne (col c : String) (fr : Frame) (row : RawRow)
    (h1 : c ≠ col) :
    frameSel (frameCreate fr col) c row = frameSel fr c row := by
  unfold frameCreate
  by_cases hg : col ∉ labels fr
  · rw [if_pos hg, frameSetNullAt_of_not_mem _ _ hg, frameSel_append_ne _ _ _ _ h1]
  · rw [if_neg hg]

theorem frameSel_frameEnsure_ne (col c : String) (fr : Frame) (row : RawRow)
    (h1 : c ≠ col) (h2 : c ≠ pyLower col) :
    frameSel (frameEnsure fr col) c row = frameSel fr c row := by
  unfold frameEnsure
  rw [frameSel_frameMapAt_ne _ _ _ _ _ h1, frameSel_frameCreate_ne _ _ _ _ h1,
    frameSel_frameAdopt_ne _ _ _ _ h1 h2]

theorem frameSel_frameEnsure_self (col : String) (fr : Frame) (row : RawRow) :
    frameSel (frameEnsure fr col) col row
      = toNumeric (if col ∈ labels fr then frameSel fr col row
                   else if pyLower col ∈ labels fr then frameSel fr (pyLower col) row
                   else Cell.null) := by
  unfold frameEnsure frameCreate frameAdopt
  by_cases hA : col ∈ labels fr
  · have hg1 : ¬(col ∉ labels fr ∧ pyLower col ∈ labels fr) := fun hg => hg.1 hA
    rw [if_neg hg1, if_neg (by simpa using hA), frameSel_frameMapAt_self _ _ _ _ hA,
      if_pos hA]
  · by_cases hB : pyLower col ∈ labels fr
    · have hg1 : col ∉ labels fr ∧ pyLower col ∈ labels fr := ⟨hA, hB⟩
      rw [if_pos hg1]
      have hmem : col ∈ labels (relabelF (fun x => if x = pyLower col then col else x) fr) := by
        rw [labels_relabelF, mem_map_rename_new]
        exact Or.inl hB
      rw [if_neg (by simpa using hmem), frameSel_frameMapAt_self _ _ _ _ hmem,
        frameSel_relabel_new _ _ _ _ hA, if_neg hA, if_pos hB]
    · have hg1 : ¬(col ∉ labels fr ∧ pyLower col ∈ labels fr) := fun hg => hB hg.2
      rw [if_neg hg1, if_pos (by simpa using hA)]
      have hsel : frameSel (frameSetNullAt col fr) col row = Cell.null := by
        rw [frameSetNullAt_of_not_mem _ _ hA]
        exact frameSel_append_self fr (col, fun _ => Cell.null) row hA
      have hmem : col ∈ labels (frameSetNullAt col fr) := by
        rw [labels_frameSetNullAt_not_mem _ _ hA, List.mem_append]
        exact Or.inr (by simp)
      rw [frameSel_frameMapAt_self _ _ _ _ hmem, hsel, if_neg hA, if_neg hB]

theorem labels_baseFrame (data : List RawRow) :
    labels (baseFrame data) = (keysUnion data).map pyStrip := by
  rw [baseFrame, labels_relabelF, labels_frame0]

theorem mem_baseFrame_iff (data : List RawRow) (c : String) :
    c ∈ labels (baseFrame data)
      ↔ ((keysUnion data).find? (fun k => pyStrip k = c)).isSome := by
  rw [labels_baseFrame]
  simp [List.mem_map, List.find?_isSome]

theorem frameSel_baseFrame (data : List RawRow) (c : String) (row : RawRow) :
    frameSel (baseFrame data) c row
      = match (keysUnion data).find? (fun k => pyStrip k = c) with
        | some k => (row.lookup k).getD Cell.null
        | none => Cell.null := by
  rw [baseFrame, frame0]
  induction keysUnion data with
  | nil => rfl
  | cons k ks ih =>
    rw [List.map_cons]
    simp only [relabelF, List.map_cons] at ih ⊢
    rw [frameSel_cons, List.find?_cons]
    by_cases hk : pyStrip k = c
    · simp [hk]
    · simp only [hk, decide_eq_false (by exact hk), if_neg hk]
      exact ih

/-- `fieldOut` in terms of base-frame selection. -/
theorem fieldOut_eq_sel (data : List RawRow) (row : RawRow) (canon lower : String)
    (f : Cell → Cell) (hf : f Cell.null = Cell.null) :
    fieldOut data row canon lower f
      = f (if canon ∈ labels (baseFrame data) then frameSel (baseFrame data) canon row
           else if lower ∈ labels (baseFrame data) then frameSel (baseFrame data) lower row
           else Cell.null) := by
  unfold fieldOut srcKey
  cases h1 : (keysUnion data).find? (fun k => pyStrip k = canon) with
  | some k =>
    rw [if_pos ((mem_baseFrame_iff data canon).mpr (by rw [h1]; rfl))]
    rw [frameSel_baseFrame, h1]
  | none =>
    have hn : canon ∉ labels (baseFrame data) := by
      rw [mem_baseFrame_iff, h1]
      simp
    rw [if_neg hn]
    cases h2 : (keysUnion data).find? (fun k => pyStrip k = lower) with
    | some k =>
      rw [if_pos ((mem_baseFrame_iff data lower).mpr (by rw [h2]; rfl))]
      rw [frameSel_baseFrame, h2]
    | none =>
      have hn2 : lower ∉ labels (baseFrame data) := by
        rw [mem_baseFrame_iff, h2]
        simp
      rw [if_neg hn2, hf]

/-! #### Realization of the whole pipeline -/

/-- The label-indexed cell of a realized row is the frame selection. -/
theorem cellAt_realize_row (fr : Frame) (c : String) (row : RawRow) (df : DataFrame)
    (hc : df.cols = labels fr) :
    cellAt df c (fr.map (fun p => p.2 row)) = frameSel fr c row := by
  unfold cellAt colIdx
  rw [hc]
  clear hc
  induction fr with
  | nil => rfl
  | cons p fr ih =>
    rw [labels_cons]
    by_cases hp : p.1 = c
    · simp [List.findIdx?_cons, hp, frameSel_cons]
    · rw [frameSel_cons, if_neg hp]
      simp only [List.findIdx?_cons, decide_eq_false (by exact hp), Bool.false_eq_true,
        if_false, List.findIdx?_start_succ, Nat.zero_add]
      cases hfi : List.findIdx? (fun x => decide (x = c)) (labels fr) with
      | none =>
        rw [hfi] at ih
        simpa using ih
      | some j =>
        rw [hfi] at ih
        simpa using ih

theorem ensureNumericCol_realize (data : List RawRow) (fr : Frame) (col : String) :
    ensureNumericCol (realize data fr) col = realize data (frameEnsure fr col) := by
  unfold ensureNumericCol frameEnsure
  have e1 : (if col ∉ (realize data fr).cols ∧ pyLower col ∈ (realize data fr).cols
        then renameCol (realize data fr) (pyLower col) col else realize data fr)
      = realize data (frameAdopt fr col) := by
    rw [frameAdopt, realize_cols]
    split_ifs with hg
    · exact renameCol_realize data fr (pyLower col) col
    · rfl
  rw [e1]
  dsimp only
  have e2 : (if col ∉ (realize data (frameAdopt fr col)).cols
        then setColNull (realize data (frameAdopt fr col)) col
        else realize data (frameAdopt fr col))
      = realize data (frameCreate (frameAdopt fr col) col) := by
    rw [frameCreate, realize_cols]
    by_cases hg : col ∉ labels (frameAdopt fr col)
    · rw [if_pos hg, if_pos hg, setColNull_realize_not_mem data _ col hg,
        frameSetNullAt_of_not_mem _ _ hg]
    · rw [if_neg hg, if_neg hg]
  rw [e2, mapCol_realize]

theorem foldl_ensure_realize (cols' : List String) (data : List RawRow) (fr : Frame) :
    cols'.foldl ensureNumericCol (realize data fr)
      = realize data (cols'.foldl frameEnsure fr) := by
  induction cols' generalizing fr with
  | nil => rfl
  | cons col cols' ih =>
    rw [List.foldl_cons, List.foldl_cons, ensureNumericCol_realize, ih]

/-- `dropna` then projection on a realized frame is per-row output plus the
`keepRec` filter. -/
theorem project_dropna_realize (data : List RawRow) (fr : Frame) :
    projectOhlc (dropnaDateClose (realize data fr))
      = (data.map (fun row => outOfF fr row)).filter keepRec := by
  have hcell : ∀ (c : String) (row : RawRow),
      cellAt (realize data fr) c (fr.map (fun p => p.2 row)) = frameSel fr c row :=
    fun c row => cellAt_realize_row fr c row _ rfl
  have hcell' : ∀ (c : String) (row : RawRow),
      cellAt (dropnaDateClose (realize data fr)) c (fr.map (fun p => p.2 row))
        = frameSel fr c row :=
    fun c row => cellAt_realize_row fr c row _ rfl
  unfold projectOhlc
  have hrows : (dropnaDateClose (realize data fr)).rows
      = (data.filter (fun row => keepRec (outOfF fr row))).map
          (fun row => fr.map (fun p => p.2 row)) := by
    unfold dropnaDateClose
    dsimp only
    rw [rows_realize, List.filter_map]
    refine congrArg _ (List.filter_congr (fun row _ => ?_))
    simp only [Function.comp_apply, hcell]
    rfl
  rw [hrows, List.map_map, List.filter_map]
  refine List.map_congr_left (fun row _ => ?_)
  simp only [Function.comp_apply, hcell']
  rfl

/-- The pipeline, realized: `planet_dataframe` on a non-empty list is the
per-row output of the final frame, filtered and sorted, or the `KeyError`
when no date column exists. -/
theorem planet_dataframe_realize (data : List RawRow) (hne : ¬data.length = 0) :
    planet_dataframe (.list data)
      = if "Date" ∈ labels (dateFrame data) then
          .ok (sortByDate ((data.map (fun row => outOfF (finalFrame data) row)).filter keepRec))
        else .error keyErrorDate := by
  have hrd : renameDateCol (realize data (baseFrame data)) = realize data (dateFrame data) := by
    unfold renameDateCol dateFrame
    rw [realize_cols]
    split_ifs with hg
    · exact renameCol_realize data (baseFrame data) "date" "Date"
    · rfl
  unfold planet_dataframe
  dsimp only
  rw [if_neg hne]
  rw [mkDataFrame_eq_realize, stripCols_realize,
    (show relabelF pyStrip (frame0 data) = baseFrame data from rfl), hrd, realize_cols]
  by_cases hD : "Date" ∈ labels (dateFrame data)
  · rw [if_pos hD, if_pos hD]
    rw [mapCol_realize, foldl_ensure_realize, project_dropna_realize]
    rfl
  · rw [if_neg hD, if_neg hD]

theorem srcKey_isSome_iff (data : List RawRow) (canon lower : String) :
    (srcKey data canon lower).isSome
      ↔ (canon ∈ labels (baseFrame data) ∨ lower ∈ labels (baseFrame data)) := by
  unfold srcKey
  cases h1 : (keysUnion data).find? (fun k => pyStrip k = canon) with
  | some k =>
    simp [mem_baseFrame_iff, h1]
  | none =>
    cases h2 : (keysUnion data).find? (fun k => pyStrip k = lower) with
    | some k => simp [mem_baseFrame_iff, h1, h2]
    | none => simp [mem_baseFrame_iff, h1, h2]

/-- Line 33 succeeds exactly when some upstream key resolves the date
column. -/
theorem mem_date_dateFrame (data : List RawRow) :
    ("Date" ∈ labels (dateFrame data)) ↔ (srcKey data "Date" "date").isSome := by
  rw [srcKey_isSome_iff]
  unfold dateFrame
  by_cases hg : "Date" ∉ labels (baseFrame data) ∧ "date" ∈ labels (baseFrame data)
  · rw [if_pos hg, labels_relabelF, mem_map_rename_new]
    constructor
    · intro h
      rcases h with h | h
      · exact Or.inr h
      · exact Or.inl h
    · intro _
      exact Or.inl hg.2
  · rw [if_neg hg]
    rw [not_and_or, not_not] at hg
    constructor
    · exact Or.inl
    · intro h
      rcases h with h | h
      · exact h
      · rcases hg with hg | hg
        · exact hg
        · exact absurd h hg

/-! #### The final frame computes `rowOut` -/

theorem sel_fr3_ne (data : List RawRow) (c : String) (row : RawRow)
    (h1 : c ≠ "Date") (h2 : c ≠ "date") :
    frameSel (frameMapAt "Date" convertDate (dateFrame data)) c row
      = frameSel (baseFrame data) c row := by
  rw [frameSel_frameMapAt_ne _ _ _ _ _ h1]
  unfold dateFrame
  split_ifs with hg
  · exact frameSel_relabel_ne _ _ _ _ _ h2 h1
  · rfl

theorem mem_fr3_iff (data : List RawRow) (c : String)
    (h1 : c ≠ "Date") (h2 : c ≠ "date") :
    (c ∈ labels (frameMapAt "Date" convertDate (dateFrame data)))
      ↔ c ∈ labels (baseFrame data) := by
  rw [labels_frameMapAt]
  unfold dateFrame
  split_ifs with hg
  · rw [labels_relabelF]
    exact mem_map_rename_iff _ _ _ _ h2 h1
  · exact Iff.rfl

/-- One OHLC field of the final output, in terms of the base frame.  `fr` is
the frame state just before this column's `ensureNumericCol` iteration, and
`hsel`/`hmem` transport its selections back to the base frame. -/
theorem ohlcField_step (data : List RawRow) (row : RawRow) (canon lower : String)
    (fr : Frame)
    (hlow : pyLower canon = lower)
    (hselc : frameSel fr canon row = frameSel (baseFrame data) canon row)
    (hsell : frameSel fr lower row = frameSel (baseFrame data) lower row)
    (hmemc : (canon ∈ labels fr) ↔ canon ∈ labels (baseFrame data))
    (hmeml : (lower ∈ labels fr) ↔ lower ∈ labels (baseFrame data)) :
    frameSel (frameEnsure fr canon) canon row = fieldOut data row canon lower toNumeric := by
  rw [frameSel_frameEnsure_self, hlow,
    fieldOut_eq_sel data row canon lower toNumeric rfl]
  by_cases hc : canon ∈ labels (baseFrame data)
  · rw [if_pos (hmemc.mpr hc), if_pos hc, hselc]
  · rw [if_neg (fun h => hc (hmemc.mp h)), if_neg hc]
    by_cases hl : lower ∈ labels (baseFrame data)
    · rw [if_pos (hmeml.mpr hl), if_pos hl, hsell]
    · rw [if_neg (fun h => hl (hmeml.mp h)), if_neg hl]

/-- Under a resolvable date column, the final frame's per-row output is
`rowOut`. -/
theorem outOfF_finalFrame (data : List RawRow) (row : RawRow)
    (hD : "Date" ∈ labels (dateFrame data)) :
    outOfF (finalFrame data) row = rowOut data row := by
  have hfinal : finalFrame data
      = frameEnsure (frameEnsure (frameEnsure (frameEnsure
          (frameMapAt "Date" convertDate (dateFrame data)) "Open") "High") "Low") "Close" := by
    simp only [finalFrame, ohlcCols, List.foldl_cons, List.foldl_nil]
  have hdate : frameSel (finalFrame data) "Date" row
      = fieldOut data row "Date" "date" convertDate := by
    rw [hfinal,
      frameSel_frameEnsure_ne "Close" "Date" _ _ (by decide) (by decide),
      frameSel_frameEnsure_ne "Low" "Date" _ _ (by decide) (by decide),
      frameSel_frameEnsure_ne "High" "Date" _ _ (by decide) (by decide),
      frameSel_frameEnsure_ne "Open" "Date" _ _ (by decide) (by decide),
      frameSel_frameMapAt_self _ _ _ _ hD,
      fieldOut_eq_sel data row "Date" "date" convertDate rfl]
    by_cases hg : "Date" ∉ labels (baseFrame data) ∧ "date" ∈ labels (baseFrame data)
    · have e : dateFrame data
          = relabelF (fun c => if c = "date" then "Date" else c) (baseFrame data) := by
        rw [dateFrame, if_pos hg]
      rw [e, frameSel_relabel_new _ _ _ _ hg.1, if_neg hg.1, if_pos hg.2]
    · have e : dateFrame data = baseFrame data := by
        rw [dateFrame, if_neg hg]
      rw [e, if_pos (e ▸ hD)]
  have hopen : frameSel (finalFrame data) "Open" row
      = fieldOut data row "Open" "open" toNumeric := by
    rw [hfinal,
      frameSel_frameEnsure_ne "Close" "Open" _ _ (by decide) (by decide),
      frameSel_frameEnsure_ne "Low" "Open" _ _ (by decide) (by decide),
      frameSel_frameEnsure_ne "High" "Open" _ _ (by decide) (by decide)]
    refine ohlcField_step data row "Open" "open" _ (by decide) ?_ ?_ ?_ ?_
    · exact sel_fr3_ne data "Open" row (by decide) (by decide)
    · exact sel_fr3_ne data "open" row (by decide) (by decide)
    · exact mem_fr3_iff data "Open" (by decide) (by decide)
    · exact mem_fr3_iff data "open" (by decide) (by decide)
  have hhigh : frameSel (finalFrame data) "High" row
      = fieldOut data row "High" "high" toNumeric := by
    rw [hfinal,
      frameSel_frameEnsure_ne "Close" "High" _ _ (by decide) (by decide),
      frameSel_frameEnsure_ne "Low" "High" _ _ (by decide) (by decide)]
    refine ohlcField_step data row "High" "high" _ (by decide) ?_ ?_ ?_ ?_
    · rw [frameSel_frameEnsure_ne "Open" "High" _ _ (by decide) (by decide)]
      exact sel_fr3_ne data "High" row (by decide) (by decide)
    · rw [frameSel_frameEnsure_ne "Open" "high" _ _ (by decide) (by decide)]
      exact sel_fr3_ne data "high" row (by decide) (by decide)
    · rw [labels_frameEnsure_mem "Open" "High" _ (by decide) (by decide)]
      exact mem_fr3_iff data "High" (by decide) (by decide)
    · rw [labels_frameEnsure_mem "Open" "high" _ (by decide) (by decide)]
      exact mem_fr3_iff data "high" (by decide) (by decide)
  have hlow : frameSel (finalFrame data) "Low" row
      = fieldOut data row "Low" "low" toNumeric := by
    rw [hfinal,
      frameSel_frameEnsure_ne "Close" "Low" _ _ (by decide) (by decide)]
    refine ohlcField_step data row "Low" "low" _ (by decide) ?_ ?_ ?_ ?_
    · rw [frameSel_frameEnsure_ne "High" "Low" _ _ (by decide) (by decide),
        frameSel_frameEnsure_ne "Open" "Low" _ _ (by decide) (by decide)]
      exact sel_fr3_ne data "Low" row (by decide) (by decide)
    · rw [frameSel_frameEnsure_ne "High" "low" _ _ (by decide) (by decide),
        frameSel_frameEnsure_ne "Open" "low" _ _ (by decide) (by decide)]
      exact sel_fr3_ne data "low" row (by decide) (by decide)
    · rw [labels_frameEnsure_mem "High" "Low" _ (by decide) (by decide),
        labels_frameEnsure_mem "Open" "Low" _ (by decide) (by decide)]
      exact mem_fr3_iff data "Low" (by decide) (by decide)
    · rw [labels_frameEnsure_mem "High" "low" _ (by decide) (by decide),
        labels_frameEnsure_mem "Open" "low" _ (by decide) (by decide)]
      exact mem_fr3_iff data "low" (by decide) (by decide)
  have hclose : frameSel (finalFrame data) "Close" row
      = fieldOut data row "Close" "close" toNumeric := by
    rw [hfinal]
    refine ohlcField_step data row "Close" "close" _ (by decide) ?_ ?_ ?_ ?_
    · rw [frameSel_frameEnsure_ne "Low" "Close" _ _ (by decide) (by decide),
        frameSel_frameEnsure_ne "High" "Close" _ _ (by decide) (by decide),
        frameSel_frameEnsure_ne "Open" "Close" _ _ (by decide) (by decide)]
      exact sel_fr3_ne data "Close" row (by decide) (by decide)
    · rw [frameSel_frameEnsure_ne "Low" "close" _ _ (by decide) (by decide),
        frameSel_frameEnsure_ne "High" "close" _ _ (by decide) (by decide),
        frameSel_frameEnsure_ne "Open" "close" _ _ (by decide) (by decide)]
      exact sel_fr3_ne data "close" row (by decide) (by decide)
    · rw [labels_frameEnsure_mem "Low" "Close" _ (by decide) (by decide),
        labels_frameEnsure_mem "High" "Close" _ (by decide) (by decide),
        labels_frameEnsure_mem "Open" "Close" _ (by decide) (by decide)]
      exact mem_fr3_iff data "Close" (by decide) (by decide)
    · rw [labels_frameEnsure_mem "Low" "close" _ (by decide) (by decide),
        labels_frameEnsure_mem "High" "close" _ (by decide) (by decide),
        labels_frameEnsure_mem "Open" "close" _ (by decide) (by decide)]
      exact mem_fr3_iff data "close" (by decide) (by decide)
  unfold outOfF rowOut
  rw [hdate, hopen, hhigh, hlow, hclose]

/-- Normal form of the pipeline: on a non-empty row list the pipeline
computes `rowOut` per row, filters on date+close validity, and sorts; with
no resolvable date column it raises (`KeyError`). -/
theorem planet_dataframe_eq_rowOut (data : List RawRow) (hne : data ≠ []) :
    planet_dataframe (.list data)
      = if (srcKey data "Date" "date").isSome then
          .ok (sortByDate ((data.map (rowOut data)).filter keepRec))
        else .error keyErrorDate := by
  have hlen : ¬data.length = 0 := by
    simpa [List.length_eq_zero] using hne
  rw [planet_dataframe_realize data hlen]
  by_cases hD : "Date" ∈ labels (dateFrame data)
  · rw [if_pos hD, if_pos ((mem_date_dateFrame data).mp hD)]
    rw [List.map_congr_left (fun row _ => outOfF_finalFrame data row hD)]
  · rw [if_neg hD, if_neg (fun hs => hD ((mem_date_dateFrame data).mpr hs))]

/-! #### Sort lemmas -/

theorem insertByDate_perm (x : OhlcOut) (l : List OhlcOut) :
    (insertByDate x l).Perm (x :: l) := by
  induction l with
  | nil => exact List.Perm.refl _
  | cons y ys ih =>
    by_cases h : dateLtb y x = true
    · rw [insertByDate, if_pos h]
      exact (ih.cons y).trans (List.Perm.swap x y ys)
    · rw [insertByDate, if_neg h]

theorem sortByDate_perm (l : List OhlcOut) : (sortByDate l).Perm l := by
  induction l with
  | nil => exact List.Perm.refl _
  | cons x xs ih => exact (insertByDate_perm x (sortByDate xs)).trans (ih.cons x)

/-! #### Value range lemmas -/

theorem convertDate_cases (c : Cell) :
    (∃ ymd, convertDate c = Cell.str (formatDate ymd)) ∨ convertDate c = Cell.null := by
  cases c with
  | str s =>
    cases h : parseDate s with
    | some ymd => exact Or.inl ⟨ymd, by simp [convertDate, h]⟩
    | none => exact Or.inr (by simp [convertDate, h])
  | num q => exact Or.inr rfl
  | null => exact Or.inr rfl

theorem toNumeric_cases (c : Cell) :
    (∃ q, toNumeric c = Cell.num q) ∨ toNumeric c = Cell.null := by
  cases c with
  | str s =>
    cases h : parseDecimal s with
    | some q => exact Or.inl ⟨q, by simp [toNumeric, h]⟩
    | none => exact Or.inr (by simp [toNumeric, h])
  | num q => exact Or.inl ⟨q, rfl⟩
  | null => exact Or.inr rfl

/-- A retained record's date cell is a formatted date string. -/
theorem dateC_of_keep (data : List RawRow) (row : RawRow)
    (h : isNotNull (rowOut data row).dateC) :
    ∃ ymd, (rowOut data row).dateC = Cell.str (formatDate ymd) := by
  unfold rowOut fieldOut at h ⊢
  dsimp only at h ⊢
  cases hsk : srcKey data "Date" "date" with
  | none =>
    rw [hsk] at h
    exact absurd h (by simp [isNotNull])
  | some k =>
    rw [hsk] at h
    dsimp only at h ⊢
    rcases convertDate_cases ((row.lookup k).getD Cell.null) with ⟨ymd, he⟩ | he
    · exact ⟨ymd, he⟩
    · rw [he] at h
      exact absurd h (by simp [isNotNull])

/-- A retained record's close cell is numeric. -/
theorem closeC_of_keep (data : List RawRow) (row : RawRow)
    (h : isNotNull (rowOut data row).closeC) :
    ∃ q, (rowOut data row).closeC = Cell.num q := by
  unfold rowOut fieldOut at h ⊢
  dsimp only at h ⊢
  cases hsk : srcKey data "Close" "close" with
  | none =>
    rw [hsk] at h
    exact absurd h (by simp [isNotNull])
  | some k =>
    rw [hsk] at h
    dsimp only at h ⊢
    rcases toNumeric_cases ((row.lookup k).getD Cell.null) with ⟨q, he⟩ | he
    · exact ⟨q, he⟩
    · rw [he] at h
      exact absurd h (by simp [isNotNull])

/-! ### Claim theorems -/

/-- C1: every record in the sequence returned by the normaliser has a
non-null canonical `YYYY-MM-DD` date and a non-null numeric Close; a record
whose Open/High/Low are null is still retained, and a record lacking a valid
Close or date is dropped — membership in the output is exactly the rows whose
resolved date and Close survive coercion (`keepRec`), independent of the
other three fields. -/
theorem C1_output_invariant (data : List RawRow) (recs : List OhlcOut)
    (h : planet_dataframe (.list data) = .ok recs) :
    (∀ r ∈ recs, (∃ ymd, r.dateC = Cell.str (formatDate ymd)) ∧ ∃ q, r.closeC = Cell.num q)
      ∧ recs.Perm ((data.map (rowOut data)).filter keepRec) := by
  by_cases hne : data = []
  · subst hne
    have hr : recs = [] := by
      have : (Except.ok [] : Except String (List OhlcOut)) = .ok recs := h
      exact (Except.ok.inj this).symm
    subst hr
    exact ⟨by simp, by simp⟩
  · rw [planet_dataframe_eq_rowOut data hne] at h
    by_cases hs : (srcKey data "Date" "date").isSome
    · rw [if_pos hs] at h
      have hrecs : sortByDate ((data.map (rowOut data)).filter keepRec) = recs :=
        Except.ok.inj h
      constructor
      · intro r hr
        rw [← hrecs] at hr
        have hr2 : r ∈ (data.map (rowOut data)).filter keepRec := (sortByDate_perm _).subset hr
        have hkeep := List.of_mem_filter hr2
        obtain ⟨row, hrow, rfl⟩ := List.mem_map.mp (List.mem_of_mem_filter hr2)
        unfold keepRec at hkeep
        simp only [Bool.and_eq_true] at hkeep
        obtain ⟨hd, hc⟩ := hkeep
        exact ⟨dateC_of_keep data row hd, closeC_of_keep data row hc⟩
      · rw [← hrecs]
        exact sortByDate_perm _
    · rw [if_neg hs] at h
      simp at h

theorem C1_output_invariant_witness :
    (∀ r ∈ ([⟨Cell.str "1994-01-02", Cell.null, Cell.null, Cell.null,
          Cell.num (mkRat 3 2)⟩] : List OhlcOut),
        (∃ ymd, r.dateC = Cell.str (formatDate ymd)) ∧ ∃ q, r.closeC = Cell.num q)
      ∧ ([⟨Cell.str "1994-01-02", Cell.null, Cell.null, Cell.null,
            Cell.num (mkRat 3 2)⟩] : List OhlcOut).Perm
          ((([[("Date", Cell.str "1994-01-02"), ("Open", Cell.str "x"),
                ("Close", Cell.str "1.5")],
              [("Date", Cell.str "bad"), ("Close", Cell.str "2")]] : List RawRow).map
            (rowOut [[("Date", Cell.str "1994-01-02"), ("Open", Cell.str "x"),
                ("Close", Cell.str "1.5")],
              [("Date", Cell.str "bad"), ("Close", Cell.str "2")]])).filter keepRec) :=
  C1_output_invariant
    [[("Date", Cell.str "1994-01-02"), ("Open", Cell.str "x"), ("Close", Cell.str "1.5")],
     [("Date", Cell.str "bad"), ("Close", Cell.str "2")]]
    [⟨Cell.str "1994-01-02", Cell.null, Cell.null, Cell.null, Cell.num (mkRat 3 2)⟩]
    (by decide)

/-- C2, against the claim: a non-empty payload in which no row has a
`Date` or `date` key makes `planet_dataframe` raise `KeyError` at line 33
instead of returning an empty sequence; the JSON export propagates the
error. -/
theorem C2_missing_date_key_raises :
    planet_dataframe (.list [[("Open", Cell.str "1.0")]]) = .error keyErrorDate
      ∧ planet_json (.list [[("Open", Cell.str "1.0")]]) = .error keyErrorDate := by
  exact ⟨by decide, by decide⟩

/-- C4: a non-list or empty-list upstream payload yields an empty
sequence without error, and the JSON, CSV and default exports each return an
empty collection. -/
theorem C4_empty_payload (p : Payload) (h : p = .nonList ∨ p = .list []) :
    planet_dataframe p = .ok [] ∧ planet_json p = .ok []
      ∧ planet_csv p = .ok "Date,Open,High,Low,Close\n"
      ∧ planet_default p = .ok [] := by
  rcases h with h | h <;> subst h <;> exact ⟨by decide, by decide, by decide, by decide⟩

theorem C4_empty_payload_witness :
    planet_dataframe .nonList = .ok [] ∧ planet_json .nonList = .ok []
      ∧ planet_csv .nonList = .ok "Date,Open,High,Low,Close\n"
      ∧ planet_default .nonList = .ok [] :=
  C4_empty_payload .nonList (Or.inl rfl)

/-- C6 counterexample: in a payload mixing `date` and `Date` across
rows, the row that used the lowercase spelling is dropped — the two variants
are NOT unified before filtering.  The output retains only the
`Date`-spelled row. -/
theorem C6_counterexample :
    planet_dataframe (.list [[("date", Cell.str "2020-01-01"), ("Close", Cell.str "1")],
        [("Date", Cell.str "2020-01-02"), ("Close", Cell.str "2")]])
      = .ok [⟨Cell.str "2020-01-02", Cell.null, Cell.null, Cell.null, Cell.num 2⟩]
    ∧ ∀ r ∈ ([⟨Cell.str "2020-01-02", Cell.null, Cell.null, Cell.null,
          Cell.num 2⟩] : List OhlcOut), r.dateC ≠ Cell.str "2020-01-01" := by
  exact ⟨by decide, by decide⟩

/-- C6 amended: when another row supplies a `Date` key, the lowercase
`date` column is not renamed (the rename of lines 30-31 fires only when no
`Date` column exists), so a row that used only the lowercase spelling has a
missing canonical date and is dropped, whatever its `date` value was; the
`Date`-spelled row alone survives. -/
theorem C6_mixed_casing (s1 s2 c1 c2 t2 : String) (q2 : ℚ)
    (hdate : convertDate (Cell.str s2) = Cell.str t2)
    (hclose : parseDecimal c2 = some q2) :
    planet_dataframe (.list [[("date", Cell.str s1), ("Close", Cell.str c1)],
        [("Date", Cell.str s2), ("Close", Cell.str c2)]])
      = .ok [⟨Cell.str t2, Cell.null, Cell.null, Cell.null, Cell.num q2⟩] := by
  rw [planet_dataframe_eq_rowOut _ (by simp)]
  have hsrc : srcKey [[("date", Cell.str s1), ("Close", Cell.str c1)],
      [("Date", Cell.str s2), ("Close", Cell.str c2)]] "Date" "date" = some "Date" := rfl
  rw [if_pos (by rw [hsrc]; rfl)]
  have e1 : rowOut [[("date", Cell.str s1), ("Close", Cell.str c1)],
        [("Date", Cell.str s2), ("Close", Cell.str c2)]]
        [("date", Cell.str s1), ("Close", Cell.str c1)]
      = ⟨Cell.null, Cell.null, Cell.null, Cell.null, toNumeric (Cell.str c1)⟩ := rfl
  have e2 : rowOut [[("date", Cell.str s1), ("Close", Cell.str c1)],
        [("Date", Cell.str s2), ("Close", Cell.str c2)]]
        [("Date", Cell.str s2), ("Close", Cell.str c2)]
      = ⟨convertDate (Cell.str s2), Cell.null, Cell.null, Cell.null,
          toNumeric (Cell.str c2)⟩ := rfl
  rw [List.map_cons, List.map_cons, List.map_nil, e1, e2, hdate]
  have e3 : toNumeric (Cell.str c2) = Cell.num q2 := by
    simp [toNumeric, hclose]
  rw [e3]
  have e4 : keepRec ⟨Cell.null, Cell.null, Cell.null, Cell.null, toNumeric (Cell.str c1)⟩
      = false := rfl
  rw [List.filter_cons, e4]
  rw [if_neg (by simp)]
  rfl

theorem C6_mixed_casing_witness :
    planet_dataframe (.list [[("date", Cell.str "2020-01-01"), ("Close", Cell.str "1")],
        [("Date", Cell.str "2020-01-02"), ("Close", Cell.str "2")]])
      = .ok [⟨Cell.str "2020-01-02", Cell.null, Cell.null, Cell.null, Cell.num 2⟩] :=
  C6_mixed_casing "2020-01-01" "2020-01-02" "1" "2" "2020-01-02" 2 (by decide) (by decide)

/-- C7 counterexample: on the one-record normaliser dated 1994-01-02
with `from=0`, `to=9999999999`, the `t` array is `[757468800]` — the Unix
seconds of 1994-01-02T00:00Z — not `[757382400]` (which is 1994-01-01), so
the claim's concrete scenario value is wrong. -/
theorem C7_counterexample :
    history earth94 "D" 0 9999999999
      = .ok ⟨"ok", [757468800], [Cell.num 1], [Cell.num 2],
          [Cell.num (mkRat 1 2)], [Cell.num (mkRat 3 2)]⟩
    ∧ ([(757468800 : Int)] : List Int) ≠ [757382400] := by
  exact ⟨by decide, by decide⟩

/-- C7 amended: `/history` converts each record's canonical date to
Unix seconds at UTC midnight, keeps exactly the records with
`from_ts ≤ time ≤ to_ts` (both bounds inclusive), and returns parallel
arrays `t,o,h,l,c` aligned by index; the 1994-01-02 scenario yields
`t=[757468800]`, kept when both bounds equal it and excluded at
`to=757468799`. -/
theorem C7_history_filter :
    (∀ (payload : Payload) (resolution : String) (from_ts to_ts : Int)
        (recs : List OhlcOut),
      planet_dataframe payload = .ok recs →
      history payload resolution from_ts to_ts
        = .ok ⟨"ok",
            ((recs.filter (fun r => from_ts ≤ recTime r && recTime r ≤ to_ts)).map recTime),
            ((recs.filter (fun r => from_ts ≤ recTime r && recTime r ≤ to_ts)).map
              (fun r => r.openC)),
            ((recs.filter (fun r => from_ts ≤ recTime r && recTime r ≤ to_ts)).map
              (fun r => r.highC)),
            ((recs.filter (fun r => from_ts ≤ recTime r && recTime r ≤ to_ts)).map
              (fun r => r.lowC)),
            ((recs.filter (fun r => from_ts ≤ recTime r && recTime r ≤ to_ts)).map
              (fun r => r.closeC))⟩)
    ∧ history earth94 "D" 0 9999999999
        = .ok ⟨"ok", [757468800], [Cell.num 1], [Cell.num 2],
            [Cell.num (mkRat 1 2)], [Cell.num (mkRat 3 2)]⟩
    ∧ history earth94 "D" 757468800 757468800
        = .ok ⟨"ok", [757468800], [Cell.num 1], [Cell.num 2],
            [Cell.num (mkRat 1 2)], [Cell.num (mkRat 3 2)]⟩
    ∧ history earth94 "D" 0 757468799 = .ok ⟨"ok", [], [], [], [], []⟩ := by
  refine ⟨?_, by decide, by decide, by decide⟩
  intro payload resolution from_ts to_ts recs h
  unfold history historyCore
  rw [h]
  rfl

theorem C7_history_filter_witness :
    history earth94 "R" 0 9999999999
      = .ok ⟨"ok",
          ((([⟨Cell.str "1994-01-02", Cell.num 1, Cell.num 2, Cell.num (mkRat 1 2),
                Cell.num (mkRat 3 2)⟩] : List OhlcOut).filter
              (fun r => 0 ≤ recTime r && recTime r ≤ 9999999999)).map recTime),
          ((([⟨Cell.str "1994-01-02", Cell.num 1, Cell.num 2, Cell.num (mkRat 1 2),
                Cell.num (mkRat 3 2)⟩] : List OhlcOut).filter
              (fun r => 0 ≤ recTime r && recTime r ≤ 9999999999)).map (fun r => r.openC)),
          ((([⟨Cell.str "1994-01-02", Cell.num 1, Cell.num 2, Cell.num (mkRat 1 2),
                Cell.num (mkRat 3 2)⟩] : List OhlcOut).filter
              (fun r => 0 ≤ recTime r && recTime r ≤ 9999999999)).map (fun r => r.highC)),
          ((([⟨Cell.str "1994-01-02", Cell.num 1, Cell.num 2, Cell.num (mkRat 1 2),
                Cell.num (mkRat 3 2)⟩] : List OhlcOut).filter
              (fun r => 0 ≤ recTime r && recTime r ≤ 9999999999)).map (fun r => r.lowC)),
          ((([⟨Cell.str "1994-01-02", Cell.num 1, Cell.num 2, Cell.num (mkRat 1 2),
                Cell.num (mkRat 3 2)⟩] : List OhlcOut).filter
              (fun r => 0 ≤ recTime r && recTime r ≤ 9999999999)).map (fun r => r.closeC))⟩ :=
  C7_history_filter.1 earth94 "R" 0 9999999999
    [⟨Cell.str "1994-01-02", Cell.num 1, Cell.num 2, Cell.num (mkRat 1 2),
      Cell.num (mkRat 3 2)⟩] (by decide)

/-- C10: the `/history` response does not depend on the `resolution`
query parameter: any two resolution values give identical responses, and an
omitted parameter defaults to `"D"` via `request.args.get`. -/
theorem C10_resolution_independent :
    (∀ (payload : Payload) (r1 r2 : String) (from_ts to_ts : Int),
        history payload r1 from_ts to_ts = history payload r2 from_ts to_ts)
    ∧ (∀ args : List (String × String), args.lookup "resolution" = none →
        getArg args "resolution" "D" = "D") := by
  refine ⟨fun _ _ _ _ _ => rfl, fun args h => ?_⟩
  rw [getArg, h]
  rfl

theorem C10_resolution_independent_witness :
    history (.list []) "15" 0 1 = history (.list []) "D" 0 1
      ∧ getArg [("symbol", "Earth")] "resolution" "D" = "D" :=
  ⟨C10_resolution_independent.1 (.list []) "15" "D" 0 1,
   C10_resolution_independent.2 [("symbol", "Earth")] (by decide)⟩

/-! #### Character case lemmas for C8 -/

theorem toNat_ofNat_lt (n : Nat) (h : n < 55296) : (Char.ofNat n).toNat = n := by
  have hv : n.isValidChar := Or.inl h
  rw [Char.ofNat, dif_pos hv]
  rfl

theorem toUpper_toUpper (c : Char) : c.toUpper.toUpper = c.toUpper := by
  unfold Char.toUpper
  dsimp only
  by_cases h : c.toNat ≥ 97 ∧ c.toNat ≤ 122
  · rw [if_pos h]
    have ht : (Char.ofNat (c.toNat - 32)).toNat = c.toNat - 32 :=
      toNat_ofNat_lt _ (by omega)
    rw [ht, if_neg (by omega)]
  · rw [if_neg h, if_neg h]

theorem toLower_toUpper (c : Char) : c.toUpper.toLower = c.toLower := by
  unfold Char.toUpper Char.toLower
  dsimp only
  by_cases h : c.toNat ≥ 97 ∧ c.toNat ≤ 122
  · rw [if_pos h]
    have ht : (Char.ofNat (c.toNat - 32)).toNat = c.toNat - 32 :=
      toNat_ofNat_lt _ (by omega)
    rw [ht, if_pos (by omega), show c.toNat - 32 + 32 = c.toNat from by omega,
      Char.ofNat_toNat, if_neg (by omega)]
  · rw [if_neg h]

theorem pyCapitalize_pyUpper (s : String) : pyCapitalize (pyUpper s) = pyCapitalize s := by
  unfold pyUpper pyCapitalize
  cases hd : s.data with
  | nil => rfl
  | cons c cs =>
    dsimp only [List.map_cons]
    rw [toUpper_toUpper, List.map_map]
    exact congrArg String.mk (congrArg₂ List.cons rfl
      (List.map_congr_left (fun a _ => toLower_toUpper a)))

/-- C8: `/symbols` echoes the fully uppercased symbol into its descriptor
fields, while `/history` passes `symbol.upper().capitalize()` — first letter
capitalized, remainder lowercased — to the normaliser; the two transforms
disagree, e.g. on "EARTH". -/
theorem C8_symbol_casing :
    (∀ args : List (String × String),
      (symbols args).name = pyUpper (getArg args "symbol" "")
        ∧ (symbols args).ticker = pyUpper (getArg args "symbol" "")
        ∧ (symbols args).description = pyUpper (getArg args "symbol" "") ++ " Planet Longitude")
    ∧ (∀ raw : String, historySymbol raw = pyCapitalize raw)
    ∧ historySymbol "EARTH" ≠ pyUpper "EARTH" := by
  refine ⟨fun args => ⟨rfl, rfl, rfl⟩, fun raw => pyCapitalize_pyUpper raw, by decide⟩

/-! #### C5: lowercase keys vs canonical-cased keys -/

theorem keysUnion_eq_foldl (data : List RawRow) :
    keysUnion data = data.foldl (fun acc row => row.foldl insKey acc) [] := rfl

theorem foldl_insKey_subset (S : List String) (row : RawRow) :
    ∀ acc : List String, (∀ kv ∈ row, kv.1 ∈ S) → (∀ a ∈ acc, a ∈ S) →
      ∀ a ∈ row.foldl insKey acc, a ∈ S := by
  induction row with
  | nil => intro acc _ hacc; exact hacc
  | cons kv row ih =>
    intro acc hrow hacc
    rw [List.foldl_cons]
    refine ih _ (fun kv' h' => hrow kv' (by simp [h'])) ?_
    intro a ha
    unfold insKey at ha
    by_cases h : kv.1 ∈ acc
    · rw [if_pos h] at ha
      exact hacc a ha
    · rw [if_neg h] at ha
      rcases List.mem_append.mp ha with ha | ha
      · exact hacc a ha
      · rw [List.mem_singleton.mp ha]
        exact hrow kv (by simp)

theorem keysUnion_mem_S (S : List String) (data : List RawRow)
    (hkeys : ∀ row ∈ data, ∀ kv ∈ row, kv.1 ∈ S) :
    ∀ a ∈ keysUnion data, a ∈ S := by
  rw [keysUnion_eq_foldl]
  suffices h : ∀ acc : List String, (∀ a ∈ acc, a ∈ S) →
      ∀ a ∈ data.foldl (fun acc row => row.foldl insKey acc) acc, a ∈ S from
    h [] (by simp)
  induction data with
  | nil => intro acc hacc; exact hacc
  | cons row data ih =>
    intro acc hacc
    rw [List.foldl_cons]
    exact ih (fun row' h' => hkeys row' (by simp [h'])) _
      (foldl_insKey_subset S row acc (hkeys row (by simp)) hacc)

theorem foldl_insKey_map (f : String → String) (S : List String)
    (hinj : ∀ a ∈ S, ∀ b ∈ S, f a = f b → a = b) (row : RawRow) :
    ∀ acc : List String, (∀ kv ∈ row, kv.1 ∈ S) → (∀ a ∈ acc, a ∈ S) →
      (row.map (fun kv => (f kv.1, kv.2))).foldl insKey (acc.map f)
        = (row.foldl insKey acc).map f := by
  induction row with
  | nil => intro acc _ _; rfl
  | cons kv row ih =>
    intro acc hrow hacc
    rw [List.map_cons, List.foldl_cons, List.foldl_cons]
    have hk : kv.1 ∈ S := hrow kv (by simp)
    have hmem : (f kv.1 ∈ acc.map f) ↔ kv.1 ∈ acc := by
      constructor
      · intro h
        obtain ⟨a, ha, hfa⟩ := List.mem_map.mp h
        rwa [hinj a (hacc a ha) kv.1 hk hfa] at ha
      · exact fun h => List.mem_map.mpr ⟨kv.1, h, rfl⟩
    by_cases h : kv.1 ∈ acc
    · unfold insKey
      rw [if_pos (hmem.mpr h), if_pos h]
      exact ih acc (fun kv' h' => hrow kv' (by simp [h'])) hacc
    · unfold insKey
      rw [if_neg (fun hc => h (hmem.mp hc)), if_neg h,
        show acc.map f ++ [f kv.1] = (acc ++ [kv.1]).map f by simp]
      refine ih (acc ++ [kv.1]) (fun kv' h' => hrow kv' (by simp [h'])) ?_
      intro a ha
      rcases List.mem_append.mp ha with ha | ha
      · exact hacc a ha
      · rw [List.mem_singleton.mp ha]
        exact hk

theorem keysUnion_capData (f : String → String) (S : List String)
    (hinj : ∀ a ∈ S, ∀ b ∈ S, f a = f b → a = b) (data : List RawRow)
    (hkeys : ∀ row ∈ data, ∀ kv ∈ row, kv.1 ∈ S) :
    keysUnion (data.map (fun row => row.map (fun kv => (f kv.1, kv.2))))
      = (keysUnion data).map f := by
  rw [keysUnion_eq_foldl, keysUnion_eq_foldl]
  suffices h : ∀ acc : List String, (∀ a ∈ acc, a ∈ S) →
      ∀ rows : List RawRow, (∀ row ∈ rows, ∀ kv ∈ row, kv.1 ∈ S) →
      (rows.map (fun row => row.map (fun kv => (f kv.1, kv.2)))).foldl
          (fun acc row => row.foldl insKey acc) (acc.map f)
        = (rows.foldl (fun acc row => row.foldl insKey acc) acc).map f from
    h [] (by simp) data hkeys
  intro acc hacc rows
  induction rows generalizing acc with
  | nil => intro _; rfl
  | cons row rows ih =>
    intro hkeys'
    rw [List.map_cons, List.foldl_cons, List.foldl_cons,
      foldl_insKey_map f S hinj row acc (hkeys' row (by simp)) hacc]
    exact ih _ (foldl_insKey_subset S row acc (hkeys' row (by simp)) hacc)
      (fun row' h' => hkeys' row' (by simp [h']))

theorem lookup_map_key (f : String → String) (S : List String)
    (hinj : ∀ a ∈ S, ∀ b ∈ S, f a = f b → a = b) (row : RawRow)
    (hrow : ∀ kv ∈ row, kv.1 ∈ S) (k : String) (hk : k ∈ S) :
    (row.map (fun kv => (f kv.1, kv.2))).lookup (f k) = row.lookup k := by
  induction row with
  | nil => rfl
  | cons kv row ih =>
    rw [List.map_cons]
    obtain ⟨k1, v1⟩ := kv
    by_cases h : k1 = k
    · subst h
      simp [List.lookup]
    · have hfk : f k1 ≠ f k := fun hc => h (hinj k1 (hrow (k1, v1) (by simp)) k hk hc)
      have hih := ih (fun kv' h' => hrow kv' (by simp [h']))
      have b1 : (f k == f k1) = false := beq_eq_false_iff_ne.mpr (Ne.symm hfk)
      have b2 : (k == k1) = false := beq_eq_false_iff_ne.mpr (Ne.symm h)
      simp only [List.lookup, b1, b2]
      exact hih

theorem find?_pred_eq (l : List String) (p q : String → Bool)
    (h : ∀ a ∈ l, p a = q a) : l.find? p = l.find? q := by
  induction l with
  | nil => rfl
  | cons a l ih =>
    rw [List.find?_cons, List.find?_cons, h a (by simp)]
    cases hq : q a with
    | true => rfl
    | false => exact ih (fun a' h' => h a' (by simp [h']))

theorem srcKey_lower (data : List RawRow) (canon lower : String)
    (hkeys : ∀ row ∈ data, ∀ kv ∈ row, kv.1 ∈ lowerKeys)
    (h1 : ∀ k ∈ lowerKeys, (decide (pyStrip k = canon) : Bool) = false)
    (h2 : ∀ k ∈ lowerKeys, (decide (pyStrip k = lower) : Bool) = decide (k = lower)) :
    srcKey data canon lower = (keysUnion data).find? (fun k => k = lower) := by
  have hks := keysUnion_mem_S lowerKeys data hkeys
  unfold srcKey
  have e1 : (keysUnion data).find? (fun k => pyStrip k = canon) = none := by
    rw [List.find?_eq_none]
    intro a ha
    simp [h1 a (hks a ha)]
  rw [e1]
  exact find?_pred_eq _ _ _ (fun a ha => h2 a (hks a ha))

theorem srcKey_capData (data : List RawRow) (canon lower : String)
    (hkeys : ∀ row ∈ data, ∀ kv ∈ row, kv.1 ∈ lowerKeys)
    (h3 : ∀ k ∈ lowerKeys, (decide (pyStrip (capKey k) = canon) : Bool) = decide (k = lower))
    (h4 : ∀ k ∈ lowerKeys, (decide (pyStrip (capKey k) = lower) : Bool) = false) :
    srcKey (capData data) canon lower
      = ((keysUnion data).find? (fun k => k = lower)).map capKey := by
  have hks := keysUnion_mem_S lowerKeys data hkeys
  have hinj : ∀ a ∈ lowerKeys, ∀ b ∈ lowerKeys, capKey a = capKey b → a = b := by decide
  unfold srcKey capData
  rw [keysUnion_capData capKey lowerKeys hinj data hkeys, List.find?_map, List.find?_map]
  have e3 : (keysUnion data).find? ((fun k => decide (pyStrip k = canon)) ∘ capKey)
      = (keysUnion data).find? (fun k => decide (k = lower)) :=
    find?_pred_eq _ _ _ (fun a ha => h3 a (hks a ha))
  rw [e3]
  cases hf : (keysUnion data).find? (fun k => decide (k = lower)) with
  | some k => rfl
  | none =>
    have e4 : (keysUnion data).find? ((fun k => decide (pyStrip k = lower)) ∘ capKey)
        = none := by
      rw [List.find?_eq_none]
      intro a ha
      simp [h4 a (hks a ha)]
    rw [e4]
    rfl

theorem fieldOut_capData (data : List RawRow) (row : RawRow) (canon lower : String)
    (g : Cell → Cell)
    (hkeys : ∀ row ∈ data, ∀ kv ∈ row, kv.1 ∈ lowerKeys)
    (hrow : ∀ kv ∈ row, kv.1 ∈ lowerKeys)
    (h1 : ∀ k ∈ lowerKeys, (decide (pyStrip k = canon) : Bool) = false)
    (h2 : ∀ k ∈ lowerKeys, (decide (pyStrip k = lower) : Bool) = decide (k = lower))
    (h3 : ∀ k ∈ lowerKeys, (decide (pyStrip (capKey k) = canon) : Bool) = decide (k = lower))
    (h4 : ∀ k ∈ lowerKeys, (decide (pyStrip (capKey k) = lower) : Bool) = false) :
    fieldOut (capData data) (row.map (fun kv => (capKey kv.1, kv.2))) canon lower g
      = fieldOut data row canon lower g := by
  have hks := keysUnion_mem_S lowerKeys data hkeys
  have hinj : ∀ a ∈ lowerKeys, ∀ b ∈ lowerKeys, capKey a = capKey b → a = b := by decide
  unfold fieldOut
  rw [srcKey_capData data canon lower hkeys h3 h4, srcKey_lower data canon lower hkeys h1 h2]
  cases hf : (keysUnion data).find? (fun k => k = lower) with
  | none => rfl
  | some k =>
    have hkS : k ∈ lowerKeys := hks k (List.mem_of_find?_eq_some hf)
    dsimp only [Option.map_some']
    rw [lookup_map_key capKey lowerKeys hinj row hrow k hkS]

/-- C5: a payload whose rows use only the lowercase keys normalizes to
exactly the same output as the same payload with canonically-cased keys; in
particular `[{"date": "2020-03-05", "close": "10"}]` yields one record
`(2020-03-05, null, null, null, 10)`. -/
theorem C5_lowercase_keys (data : List RawRow)
    (hkeys : ∀ row ∈ data, ∀ kv ∈ row, kv.1 ∈ lowerKeys) :
    planet_dataframe (.list data) = planet_dataframe (.list (capData data))
      ∧ planet_dataframe (.list [[("date", Cell.str "2020-03-05"), ("close", Cell.str "10")]])
        = .ok [⟨Cell.str "2020-03-05", Cell.null, Cell.null, Cell.null, Cell.num 10⟩] := by
  refine ⟨?_, by decide⟩
  by_cases hne : data = []
  · subst hne
    rfl
  · have hneC : capData data ≠ [] := by
      simpa [capData] using hne
    rw [planet_dataframe_eq_rowOut data hne, planet_dataframe_eq_rowOut _ hneC]
    have hsD := srcKey_lower data "Date" "date" hkeys (by decide) (by decide)
    have hsDC := srcKey_capData data "Date" "date" hkeys (by decide) (by decide)
    have hsome : (srcKey (capData data) "Date" "date").isSome
        = (srcKey data "Date" "date").isSome := by
      rw [hsD, hsDC, Option.isSome_map']
    have hpoint : ∀ row ∈ data,
        rowOut (capData data) (row.map (fun kv => (capKey kv.1, kv.2))) = rowOut data row := by
      intro row hrowmem
      have hrowk : ∀ kv ∈ row, kv.1 ∈ lowerKeys := hkeys row hrowmem
      unfold rowOut
      rw [fieldOut_capData data row "Date" "date" convertDate hkeys hrowk
            (by decide) (by decide) (by decide) (by decide),
          fieldOut_capData data row "Open" "open" toNumeric hkeys hrowk
            (by decide) (by decide) (by decide) (by decide),
          fieldOut_capData data row "High" "high" toNumeric hkeys hrowk
            (by decide) (by decide) (by decide) (by decide),
          fieldOut_capData data row "Low" "low" toNumeric hkeys hrowk
            (by decide) (by decide) (by decide) (by decide),
          fieldOut_capData data row "Close" "close" toNumeric hkeys hrowk
            (by decide) (by decide) (by decide) (by decide)]
    have hmap : (capData data).map (rowOut (capData data)) = data.map (rowOut data) := by
      have he : capData data
          = data.map (fun row => row.map (fun kv => (capKey kv.1, kv.2))) := rfl
      calc (capData data).map (rowOut (capData data))
          = (data.map (fun row => row.map (fun kv => (capKey kv.1, kv.2)))).map
              (rowOut (capData data)) := by rw [← he]
        _ = data.map ((rowOut (capData data)) ∘
              (fun row => row.map (fun kv => (capKey kv.1, kv.2)))) := by
            rw [List.map_map]
        _ = data.map (rowOut data) :=
            List.map_congr_left (fun row hrowmem => hpoint row hrowmem)
    by_cases hs : (srcKey data "Date" "date").isSome
    · rw [if_pos hs, if_pos (by rw [hsome]; exact hs), hmap]
    · rw [if_neg hs, if_neg (by rw [hsome]; exact hs)]

theorem C5_lowercase_keys_witness :
    planet_dataframe (.list [[("date", Cell.str "2020-03-05"), ("close", Cell.str "10")]])
      = planet_dataframe (.list (capData
          [[("date", Cell.str "2020-03-05"), ("close", Cell.str "10")]]))
    ∧ planet_dataframe (.list [[("date", Cell.str "2020-03-05"), ("close", Cell.str "10")]])
      = .ok [⟨Cell.str "2020-03-05", Cell.null, Cell.null, Cell.null, Cell.num 10⟩] :=
  C5_lowercase_keys [[("date", Cell.str "2020-03-05"), ("close", Cell.str "10")]]
    (by decide)

end PlanetBridge
